import Mathlib

/-!
# Verification of the copilot-api gateway core

Shallow embedding of the request-path code of the `copilot-api` repository:

* `src/lib/rate-limit.ts` — the admission controller (`checkRateLimit`);
* `src/routes/chat-completions/handler.ts` — the dispatcher (`handleCompletion`);
* `src/services/copilot/create-chat-completions.ts` — upstream request
  construction (agent-preamble merge, `createChatCompletions`);
* `src/server.ts` — route registration (Hono `route` mounting semantics);
* the Anthropic→OpenAI request translation and the credential refresh
  manager, which are absent from the source snapshot and are therefore
  modelled from the specification where a claim needs them.

Timestamps are integer milliseconds (JavaScript `Date.now()`).  The source
computes `elapsedSeconds = (now - last) / 1000` as a float and compares it
with the integer `rateLimitSeconds`; over integer millisecond inputs the
comparison `elapsedSeconds > r` is exactly `elapsedMs > 1000 * r`, and
`Math.ceil(r - elapsedSeconds)` is exactly `⌈(1000*r - elapsedMs) / 1000⌉`,
which is how the embedding states them.
-/

namespace CopilotApi

/-! ## Admission controller: `src/lib/rate-limit.ts` -/

/-- `Math.ceil (a / b)` for integers, `b > 0`:
ceiling division expressed through floor division (`Int.fdiv`). -/
def ceilDiv (a b : Int) : Int := -(Int.fdiv (-a) b)

/-- The slice of the global mutable `state` (`src/lib/state.ts`, inferred from
its uses in `rate-limit.ts`) that `checkRateLimit` reads and writes.
`lastRequestTimestamp : number | undefined` becomes `Option Int`;
`rateLimitSeconds : number | undefined` becomes `Option Int`;
`rateLimitWait : boolean`. -/
structure RLState where
  lastRequestTimestamp : Option Int
  rateLimitSeconds : Option Int
  rateLimitWait : Bool
  deriving Repr, DecidableEq

/-- `state.rateLimitSeconds ?? 0` -/
def RLState.limit (s : RLState) : Int := s.rateLimitSeconds.getD 0

/-- The error value of `throw new HTTPError("Rate limit exceeded",
Response.json({ message: "Rate limit exceeded" }, { status: 429 }))`:
everything the thrown exception carries. -/
structure HttpErrorModel where
  message : String
  bodyMessage : String
  status : Nat
  deriving Repr, DecidableEq

/-- The rate-limit error thrown by `checkRateLimit` (lines 34–37). -/
def rateLimitError : HttpErrorModel :=
  { message := "Rate limit exceeded"
    bodyMessage := "Rate limit exceeded"
    status := 429 }

/-- Outcome of one `checkRateLimit` call. `proceed` returns at once (the
call is admitted) with the updated state; `reject` throws `err`;
`waitThenProceed` sleeps `waitMs` milliseconds and then stores the updated
state. -/
inductive RLResult where
  | proceed (newState : RLState)
  | reject (err : HttpErrorModel)
  | waitThenProceed (waitMs : Int) (newState : RLState)
  deriving Repr, DecidableEq

/-- `checkRateLimit` (`src/lib/rate-limit.ts` lines 8–49), with `now` the
value of `Date.now()` at entry.

* `!state.lastRequestTimestamp` is true for `undefined` and for `0`.
* Admission test (lines 18–24): `(r ?? 0) > 0 && elapsedSeconds > (r ?? 0)`.
* `waitTimeSeconds = Math.ceil((r ?? 0) - elapsedSeconds)` (lines 26–28).
* Reject path (lines 30–38) throws `rateLimitError`; the computed wait time
  is only written to the log, not to the error.
* Wait path (lines 40–48) sleeps `waitTimeSeconds * 1000` ms and then
  records `now` — the time of the original check — as the new timestamp. -/
def checkRateLimit (s : RLState) (now : Int) : RLResult :=
  if s.lastRequestTimestamp.getD 0 = 0 then
    .proceed { s with lastRequestTimestamp := some now }
  else
    let elapsedMs : Int := now - s.lastRequestTimestamp.getD 0
    if 0 < s.limit ∧ 1000 * s.limit < elapsedMs then
      .proceed { s with lastRequestTimestamp := some now }
    else
      let waitTimeSeconds : Int := ceilDiv (1000 * s.limit - elapsedMs) 1000
      if !s.rateLimitWait then
        .reject rateLimitError
      else
        .waitThenProceed (waitTimeSeconds * 1000)
          { s with lastRequestTimestamp := some now }

/-- Whether a `checkRateLimit` outcome is an immediate admission. -/
def RLResult.isImmediate : RLResult → Bool
  | .proceed _ => true
  | _ => false

/-- The remaining wait, in whole seconds rounded up, at the moment of a
check — the `waitTimeSeconds` quantity of lines 26–28. -/
def remainingWaitSeconds (s : RLState) (now : Int) : Int :=
  ceilDiv (1000 * s.limit - (now - s.lastRequestTimestamp.getD 0)) 1000

example :
    checkRateLimit ⟨some 1000, some 1, false⟩ 3500 =
      .proceed ⟨some 3500, some 1, false⟩ := by decide

example :
    checkRateLimit ⟨some 1000, some 1, false⟩ 1500 = .reject rateLimitError := by
  decide

example :
    checkRateLimit ⟨some 1000, some 1, true⟩ 1100 =
      .waitThenProceed 1000 ⟨some 1100, some 1, true⟩ := by decide

/-! Bounds for `ceilDiv`: for `b > 0`, `ceilDiv a b` is the least integer
whose product with `b` is at least `a`. -/

theorem ceilDiv_mul_ge (a b : Int) (hb : 0 < b) : a ≤ ceilDiv a b * b := by
  unfold ceilDiv
  have h := Int.fdiv_add_fmod (-a) b
  have hmod : 0 ≤ Int.fmod (-a) b := Int.fmod_nonneg' (-a) hb
  nlinarith [h]

theorem ceilDiv_mul_lt (a b : Int) (hb : 0 < b) : ceilDiv a b * b < a + b := by
  unfold ceilDiv
  have h := Int.fdiv_add_fmod (-a) b
  have hmod : Int.fmod (-a) b < b := Int.fmod_lt_of_pos (-a) hb
  nlinarith [h]

/-! ## Data model: `src/services/copilot/create-chat-completions.ts`
(types `Message`, `ContentPart`, `ToolCall`, `ChatCompletionsPayload`) -/

/-- `Message.role`: `"user" | "assistant" | "system" | "tool" | "developer"`. -/
inductive Role where
  | user | assistant | system | tool | developer
  deriving Repr, DecidableEq

/-- `ContentPart = TextPart | ImagePart`. -/
inductive ContentPart where
  | text (text : String)
  | imageUrl (url : String) (detail : Option String)
  deriving Repr, DecidableEq

/-- `Message.content : string | Array<ContentPart> | null`. -/
inductive MsgContent where
  | str (s : String)
  | parts (ps : List ContentPart)
  | null
  deriving Repr, DecidableEq

/-- `ToolCall`. -/
structure ToolCall where
  id : String
  name : String
  arguments : String
  deriving Repr, DecidableEq

/-- `Message`. -/
structure Message where
  role : Role
  content : MsgContent
  name : Option String := none
  tool_calls : Option (List ToolCall) := none
  tool_call_id : Option String := none
  deriving Repr, DecidableEq

/-- `n % 16` as a lower-case hexadecimal digit. -/
def hexDigit (n : Nat) : Char :=
  Nat.digitChar (n % 16)

/-- Four-digit hexadecimal rendering used by JSON `\uXXXX` escapes. -/
def hex4 (n : Nat) : String :=
  String.mk [hexDigit (n / 4096), hexDigit (n / 256), hexDigit (n / 16), hexDigit n]

/-- JSON string escaping as performed by `JSON.stringify`. -/
def jsonEscapeChar (c : Char) : String :=
  if c = '"' then "\\\""
  else if c = '\\' then "\\\\"
  else if c = '\n' then "\\n"
  else if c = '\r' then "\\r"
  else if c = '\t' then "\\t"
  else if c.toNat < 32 then "\\u" ++ hex4 c.toNat
  else String.singleton c

/-- Escape every character of a string for a JSON string literal. -/
def jsonEscape (s : String) : String :=
  String.join (s.data.map jsonEscapeChar)

/-- `JSON.stringify` of one content part. -/
def ContentPart.jsonStringify : ContentPart → String
  | .text t =>
      "\x7b\"type\":\"text\",\"text\":\"" ++ jsonEscape t ++ "\"\x7d"
  | .imageUrl url detail =>
      "\x7b\"type\":\"image_url\",\"image_url\":\x7b\"url\":\"" ++ jsonEscape url
        ++ "\"" ++
        (match detail with
          | some d => ",\"detail\":\"" ++ jsonEscape d ++ "\""
          | none => "")
        ++ "\x7d\x7d"

/-- `JSON.stringify` of a message content value. -/
def MsgContent.jsonStringify : MsgContent → String
  | .str s => "\"" ++ jsonEscape s ++ "\""
  | .parts ps => "[" ++ String.intercalate "," (ps.map ContentPart.jsonStringify) ++ "]"
  | .null => "null"

/-- `typeof msg.content === "string" ? msg.content : JSON.stringify(msg.content)`
(`create-chat-completions.ts` line 25). -/
def MsgContent.asStringOrJson : MsgContent → String
  | .str s => s
  | c => c.jsonStringify

/-! ## Agent-preamble merge: `create-chat-completions.ts` lines 13–37 -/

/-- JavaScript `String.prototype.trim`: strip leading and trailing
whitespace. -/
def jsTrim (s : String) : String :=
  String.mk (((s.data.dropWhile Char.isWhitespace).reverse.dropWhile
    Char.isWhitespace).reverse)

/-- The fresh system message `{ role: "system", content: payload.agent_prompt }`
inserted at the front when no system message exists (lines 31–36). -/
def systemPreambleMessage (ap : String) : Message :=
  { role := .system, content := .str ap }

/-- Lines 14–37 of `create-chat-completions.ts`: compute `processedMessages`
from `payload.agent_prompt` and `payload.messages`.

* Guard (line 15): `payload.agent_prompt && payload.agent_prompt.trim()` —
  the preamble must be present, non-empty, and non-blank after trimming.
* If some message has `role === "system"` (line 17), the preamble is
  prepended — `agent_prompt + "\n\n" + content` — to the message whose index
  equals `findIndex(m => m.role === "system")`, i.e. the first system
  message (lines 21–29); all other messages are returned unchanged.
* Otherwise a new system message holding the preamble is consed onto the
  front (lines 31–36). -/
def processAgentPrompt (agentPrompt : Option String) (messages : List Message) :
    List Message :=
  match agentPrompt with
  | none => messages
  | some ap =>
    if ap ≠ "" ∧ jsTrim ap ≠ "" then
      if messages.any (fun m => m.role == .system) then
        let firstIdx := messages.findIdx (fun m => m.role == .system)
        messages.mapIdx (fun i m =>
          if m.role == .system ∧ i = firstIdx then
            { m with content := .str (ap ++ "\n\n" ++ m.content.asStringOrJson) }
          else m)
      else systemPreambleMessage ap :: messages
    else messages

/-! ## Dispatcher: `src/routes/chat-completions/handler.ts` -/

/-- One entry of `state.models.data`
(`model.capabilities.limits.max_output_tokens`, handler lines 61–67). -/
structure ModelEntry where
  id : String
  maxOutputTokens : Int
  deriving Repr, DecidableEq

/-- The slice of the global `state` read by the dispatcher and by
`createChatCompletions`: `manualApprove`, `models?.data`, `copilotToken`. -/
structure AppState where
  manualApprove : Bool
  models : Option (List ModelEntry)
  copilotToken : Option String
  deriving Repr, DecidableEq

/-- `ChatCompletionsPayload` after the handler's shape check: `model` is a
non-empty string and `messages` is an array.  Fields not read by the
embedded code paths are omitted. -/
structure Payload where
  model : String
  messages : List Message
  max_tokens : Option Int := none
  agent_prompt : Option String := none
  stream : Bool := false
  deriving Repr, DecidableEq

/-- The payload as parsed from the request body, before the handler's
check: `messages` is `none` when the field is missing or not an array
(`!Array.isArray(payload.messages)`), and a missing or empty `model`
is represented by `""` (both are JavaScript-falsy in `!payload.model`). -/
structure RawPayload where
  model : String
  messages : Option (List Message)
  max_tokens : Option Int := none
  agent_prompt : Option String := none
  stream : Bool := false
  deriving Repr, DecidableEq

/-- Handler lines 60–70: when `isNullish(payload.max_tokens)`, look the model
up in `state.models?.data` and spread `max_tokens:
selectedModel?.capabilities.limits.max_output_tokens` into the payload;
otherwise the payload is left untouched. -/
def fillMaxTokens (st : AppState) (p : Payload) : Payload :=
  if p.max_tokens.isNone then
    let selectedModel := st.models.bind (fun data => data.find? (fun m => m.id == p.model))
    { p with max_tokens := selectedModel.map (·.maxOutputTokens) }
  else p

/-- Observable effects of one dispatch.  `rateLimitCheck` is the event the
admission gate would contribute (`await checkRateLimit(state)`); the
handler's line 27 has that call commented out, so the embedding of
`handleCompletion` never emits it.  `upstreamCall` is the `fetch` to the
upstream chat-completions endpoint, carrying the final payload and the
derived `X-Initiator`/vision flags. -/
inductive HEvent where
  | rateLimitCheck
  | approval
  | upstreamCall (finalPayload : Payload) (xInitiatorAgent : Bool) (visionEnabled : Bool)
  deriving Repr, DecidableEq

/-- How a dispatch ends, as far as the embedded slice goes: `ok` (the
upstream call was performed and its response is being relayed),
`httpError` (a thrown `HTTPError` with its status and message), or
`thrown` (a plain `Error`). -/
inductive Outcome where
  | ok
  | httpError (status : Nat) (message : String)
  | thrown (msg : String)
  deriving Repr, DecidableEq

/-- `createChatCompletions` (`create-chat-completions.ts` lines 8–81) up to
the upstream `fetch`: the token guard (line 11), the agent-preamble merge
(lines 13–37), `enableVision` (lines 39–43), the `X-Initiator` agent/user
choice (lines 45–49), and the final payload with `messages` replaced by the
processed list and `agent_prompt` dropped (lines 57–63). -/
def createChatCompletionsModel (st : AppState) (p : Payload) :
    List HEvent × Outcome :=
  if st.copilotToken.isNone then
    ([], .thrown "Copilot token not found")
  else
    let processedMessages := processAgentPrompt p.agent_prompt p.messages
    let enableVision := processedMessages.any fun m =>
      match m.content with
      | .parts ps => ps.any fun part =>
          match part with
          | .imageUrl _ _ => true
          | _ => false
      | _ => false
    let isAgentCall :=
      (processedMessages.any fun m => m.role == .assistant || m.role == .tool)
        || (match p.agent_prompt with
            | some ap => jsTrim ap ≠ ""
            | none => false)
    let finalPayload := { p with messages := processedMessages, agent_prompt := none }
    ([.upstreamCall finalPayload isAgentCall enableVision], .ok)

/-- `handleCompletion` (`handler.ts` lines 21–97) as a trace of observable
events plus an outcome.

* `body = none` models a request whose body is empty or fails
  `JSON.parse` (lines 30–42): HTTP 400, nothing else happens.
* Lines 45–54: `!Array.isArray(payload.messages) || !payload.model`
  throws HTTP 400 before anything else; the two disjuncts are checked in
  order here, with the same error.
* Line 27 (`await checkRateLimit(state)`) is commented out in the source
  — "Temporarily disable rate limiting for testing" — so no
  `rateLimitCheck` event is emitted anywhere.
* Line 58: `if (state.manualApprove) await awaitApproval()`.
* Lines 60–70: `fillMaxTokens`.
* Line 73: `createChatCompletions(payload)`. -/
def handleCompletion (st : AppState) (body : Option RawPayload) :
    List HEvent × Outcome :=
  match body with
  | none => ([], .httpError 400 "Invalid JSON payload")
  | some raw =>
    match raw.messages with
    | none => ([], .httpError 400 "Missing required fields: messages and model")
    | some msgs =>
      if raw.model = "" then
        ([], .httpError 400 "Missing required fields: messages and model")
      else
        let approvalEvents := if st.manualApprove then [HEvent.approval] else []
        let payload : Payload :=
          { model := raw.model, messages := msgs, max_tokens := raw.max_tokens
            agent_prompt := raw.agent_prompt, stream := raw.stream }
        let payload := fillMaxTokens st payload
        let (evts, out) := createChatCompletionsModel st payload
        (approvalEvents ++ evts, out)

/-- Whether an event is the upstream `fetch`. -/
def HEvent.isUpstreamCall : HEvent → Bool
  | .upstreamCall .. => true
  | _ => false

/-- The payload of the first upstream call in a trace, if any. -/
def upstreamPayload? (es : List HEvent) : Option Payload :=
  es.findSome? fun e =>
    match e with
    | .upstreamCall p _ _ => some p
    | _ => none

example :
    (handleCompletion ⟨false, none, some "tok"⟩
      (some ⟨"gpt-4o", some [{ role := .user, content := .str "hi" }], some 5, none, false⟩)).2
      = .ok := by decide

example :
    (handleCompletion ⟨false, none, some "tok"⟩
      (some ⟨"gpt-4o", none, some 5, none, false⟩)).1 = [] := by decide

/-! ## Route registration: `src/server.ts`

Paths are modelled as segment lists (`/v1/messages` = `["v1", "messages"]`;
a sub-app path `/` is `[]`).  Hono's `app.route(prefix, subApp)` registers
every route of `subApp` with its path prefixed by `prefix`, which here is
list concatenation.  Matching picks the first registered route whose method
and segments equal the request's.  Middleware (`use`) registrations carry no
terminal handler and are not part of the table.  The route files absent from
the snapshot (`models`, `usage`, `analytics`, `docs`) appear as universally
quantified route lists mounted at their prefixes from `server.ts`. -/

/-- HTTP method of a registered route. -/
inductive Method where
  | get | post
  deriving Repr, DecidableEq

/-- Identifier of a terminal handler reachable through the route table. -/
inductive HandlerId where
  | rootText | dashboard | metrics
  | completion | embeddings | messages | countTokens
  | healthMain | healthDetailed
  | tokenMain | tokenStatus | tokenValidate
  | claudeSetup | claudeSelectModel | claudeScript | claudeCommand | claudeConfig
  | perfHandler (sub : List String)
  | external (tag : String) (sub : List String)
  deriving Repr, DecidableEq

/-- One registered route. -/
structure RouteEntry where
  method : Method
  path : List String
  handler : HandlerId
  deriving Repr, DecidableEq

/-- Hono `app.route(prefix, subApp)`: every route of the sub-app is
re-registered with the mount prefix prepended. -/
def mountAt (pre : List String) (rs : List RouteEntry) : List RouteEntry :=
  rs.map fun r => { r with path := pre ++ r.path }

/-- `src/routes/chat-completions/route.ts`: `completionRoutes.post("/", …)`. -/
def completionRoutesR : List RouteEntry := [⟨.post, [], .completion⟩]

/-- `src/routes/embeddings/route.ts`: `embeddingRoutes.post("/", …)`. -/
def embeddingRoutesR : List RouteEntry := [⟨.post, [], .embeddings⟩]

/-- `src/routes/messages/route.ts`: `messageRoutes.post("/", …)`. -/
def messageRoutesR : List RouteEntry := [⟨.post, [], .messages⟩]

/-- `src/routes/health/route.ts`: `GET /` and `GET /detailed`. -/
def healthRouteR : List RouteEntry :=
  [⟨.get, [], .healthMain⟩, ⟨.get, ["detailed"], .healthDetailed⟩]

/-- `src/routes/token/route.ts`: `GET /`, `GET /status`, `POST /validate`. -/
def tokenRouteR : List RouteEntry :=
  [⟨.get, [], .tokenMain⟩, ⟨.get, ["status"], .tokenStatus⟩,
   ⟨.post, ["validate"], .tokenValidate⟩]

/-- `src/routes/claude-code/route.ts`: two POSTs and three GETs. -/
def claudeCodeRouteR : List RouteEntry :=
  [⟨.post, ["setup"], .claudeSetup⟩, ⟨.post, ["select-model"], .claudeSelectModel⟩,
   ⟨.get, ["script"], .claudeScript⟩, ⟨.get, ["command"], .claudeCommand⟩,
   ⟨.get, ["config"], .claudeConfig⟩]

/-- `src/routes/performance/route.ts`: GET-only sub-paths. -/
def performanceRouteR : List RouteEntry :=
  [⟨.get, [], .perfHandler []⟩, ⟨.get, ["model", ":modelName"], .perfHandler ["model"]⟩,
   ⟨.get, ["fastest"], .perfHandler ["fastest"]⟩,
   ⟨.get, ["reliable"], .perfHandler ["reliable"]⟩,
   ⟨.get, ["recommendations"], .perfHandler ["recommendations"]⟩,
   ⟨.get, ["summary"], .perfHandler ["summary"]⟩,
   ⟨.get, ["trends"], .perfHandler ["trends"]⟩,
   ⟨.get, ["dashboard"], .perfHandler ["dashboard"]⟩]

/-- `server.ts` lines 94–114: the authenticated sub-app — `completionRoutes`,
`embeddingRoutes` and `messageRoutes` mounted at `/`, then
`authenticatedApp.post("/v1/messages/count_tokens", (c) => c.json({ input_tokens: 1 }))`. -/
def authenticatedAppR : List RouteEntry :=
  mountAt [] completionRoutesR ++ mountAt [] embeddingRoutesR
    ++ mountAt [] messageRoutesR
    ++ [⟨.post, ["v1", "messages", "count_tokens"], .countTokens⟩]

/-- `server.ts` lines 103–107: the optional-auth sub-app — `claudeCodeRoute`,
`usageRoute`, `tokenRoute`, `modelRoutes` mounted at `/` (the `usage` and
`models` route files are absent from the snapshot and stay abstract). -/
def optionalAuthAppR (usageR modelsR : List RouteEntry) : List RouteEntry :=
  mountAt [] claudeCodeRouteR ++ mountAt [] usageR ++ mountAt [] tokenRouteR
    ++ mountAt [] modelsR

/-- `server.ts` lines 49–129 in registration order: direct handlers and
`server.route` mounts.  `docsR`, `analyticsR`, `usageR`, `modelsR` stand for
the files absent from the snapshot. -/
def serverRoutesR (docsR analyticsR usageR modelsR : List RouteEntry) :
    List RouteEntry :=
  [⟨.get, [], .rootText⟩]
    ++ mountAt ["health"] healthRouteR
    ++ mountAt ["docs"] docsR
    ++ mountAt ["performance"] performanceRouteR
    ++ [⟨.get, ["dashboard"], .dashboard⟩]
    ++ [⟨.get, ["metrics"], .metrics⟩]
    ++ mountAt ["analytics"] analyticsR
    ++ mountAt ["claude-code"] (optionalAuthAppR usageR modelsR)
    ++ mountAt ["usage"] (optionalAuthAppR usageR modelsR)
    ++ mountAt ["token"] (optionalAuthAppR usageR modelsR)
    ++ mountAt ["models"] (optionalAuthAppR usageR modelsR)
    ++ mountAt ["chat", "completions"] authenticatedAppR
    ++ mountAt ["embeddings"] authenticatedAppR
    ++ mountAt ["v1", "models"] (optionalAuthAppR usageR modelsR)
    ++ mountAt ["v1", "chat", "completions"] authenticatedAppR
    ++ mountAt ["v1", "embeddings"] authenticatedAppR
    ++ mountAt ["v1", "messages"] authenticatedAppR

/-- First-match route lookup. -/
def lookupRoute (table : List RouteEntry) (m : Method) (path : List String) :
    Option HandlerId :=
  (table.find? fun r => r.method == m && r.path == path).map (·.handler)

/-- The body returned by the count-tokens handler:
`(c) => c.json({ input_tokens: 1 })` — constant, ignoring the request. -/
structure CountTokensBody where
  input_tokens : Nat
  deriving Repr, DecidableEq

/-- The count-tokens handler as a function of the request body. -/
def countTokensHandlerFn (_requestBody : String) : CountTokensBody :=
  { input_tokens := 1 }

/-- A mounted route can only match a request path that extends the mount
prefix. -/
theorem mountAt_no_match (pre : List String)
    (rs : List RouteEntry) (m : Method) (path : List String)
    (h : ¬ pre <+: path) :
    (mountAt pre rs).find? (fun r => r.method == m && r.path == path) = none := by
  induction rs with
  | nil => rfl
  | cons r rs ih =>
    simp only [mountAt, List.map_cons, List.find?_cons] at *
    have hne : (pre ++ r.path) ≠ path := by
      intro hEq
      exact h ⟨r.path, hEq⟩
    have : ((r.method == m) && (pre ++ r.path == path)) = false := by
      simp [hne]
    simp only [this]
    exact ih

/-! ## Anthropic→OpenAI request translation (spec-modelled)

`tests/anthropic-request.test.ts` imports `translateToOpenAI` from
`src/routes/messages/non-stream-translation.ts`, but that file is absent
from the source snapshot; the definitions below are modelled from the
specification (§4.1) and checked against the expectations of the test
file. -/

/-- An Anthropic content block of an assistant message
(`anthropic-types.ts` is absent; shapes follow the test file's payloads:
`{type:"text",text}`, `{type:"thinking",thinking}`,
`{type:"tool_use",id,name,input}`, `{type:"tool_result",tool_use_id,…}`). -/
inductive AnthropicBlock where
  | text (text : String)
  | thinking (thinking : String)
  | toolUse (id : String) (name : String) (input : String)
  | toolResult (toolUseId : String) (content : String)
  deriving Repr, DecidableEq

/-- Join a list of text fragments into one blob, newline-separated. -/
def joinBlob : List String → String
  | [] => ""
  | [s] => s
  | s :: rest => s ++ "\n" ++ joinBlob rest

/-- Modelled from the spec: the content flattening of `translateToOpenAI`
(`src/routes/messages/non-stream-translation.ts`, absent from the
snapshot).  Spec §4.1: "a `thinking` part occurring before a `text` part in
the same assistant message is concatenated into one text blob in original
order (thinking text first, then visible text) — this flattening is
required because the canonical upstream format has no `thinking` concept."
Both `thinking` and `text` blocks contribute their text in block order;
`tool_use`/`tool_result` blocks contribute no text. -/
def flattenAssistantBlocks (blocks : List AnthropicBlock) : String :=
  joinBlob (blocks.filterMap fun b =>
    match b with
    | .thinking t => some t
    | .text t => some t
    | _ => none)

/-- Modelled from the spec: the assistant branch of `translateToOpenAI` —
`tool_use` parts become tool-call entries on the assistant message
(spec §4.1), everything text-like is flattened into the content string. -/
def translateAssistantMessage (blocks : List AnthropicBlock) : Message :=
  { role := .assistant
    content := .str (flattenAssistantBlocks blocks)
    tool_calls :=
      match blocks.filterMap (fun b =>
        match b with
        | .toolUse id name input => some (ToolCall.mk id name input)
        | _ => none) with
      | [] => none
      | calls => some calls }

/-! ## Credential refresh single-flight (spec-modelled)

The credential lifecycle manager (`getValid()` and the refresh path) is
absent from the source snapshot — the spec (§4.2, §9) describes it and
requires the single-flight guarantee.  The model below is an interleaving
semantics for `n` concurrent `getValid()` callers racing against one shared
refresh, modelled from the spec's words: a caller that observes the need to
refresh starts a refresh only when none is in flight, otherwise awaits the
in-flight one; the refresh completes once and installs the fresh bearer;
awaiting callers then resume with the current bearer. -/

/-- Where one `getValid()` caller stands. -/
inductive CallerPhase where
  | start
  | awaiting
  | done (bearer : String)
  deriving Repr, DecidableEq

/-- Shared credential-manager state plus the per-caller phases.
`refreshCalls` counts upstream refresh HTTP calls started so far. -/
structure RefreshSystem where
  inflight : Bool
  refreshCalls : Nat
  refreshed : Bool
  bearer : String
  callers : List CallerPhase
  deriving Repr, DecidableEq

/-- Initial state: credential within its refresh margin (so every caller
observes `needsRefresh`), no refresh started, `n` callers about to call
`getValid()`. -/
def initRefresh (n : Nat) (old : String) : RefreshSystem :=
  { inflight := false, refreshCalls := 0, refreshed := false, bearer := old
    callers := List.replicate n .start }

/-- One atomic scheduler step: caller `i` performs its refresh-due check
(`observe`), the in-flight refresh HTTP call returns (`complete`), or an
awaiting caller resumes after the refresh settled (`receive`). -/
inductive RefreshAction where
  | observe (i : Nat)
  | complete
  | receive (i : Nat)
  deriving Repr, DecidableEq

/-- Modelled from the spec (§4.2): the transition function of the
single-flight refresh.  A caller in `start` that finds the credential
already refreshed returns it at once; one that finds a refresh in flight
awaits it; one that finds neither starts the one refresh HTTP call.
Inapplicable actions leave the state unchanged. -/
def refreshStep (fresh : String) (sys : RefreshSystem) :
    RefreshAction → RefreshSystem
  | .observe i =>
    match sys.callers[i]? with
    | some .start =>
      if sys.refreshed then
        { sys with callers := sys.callers.set i (.done sys.bearer) }
      else if sys.inflight then
        { sys with callers := sys.callers.set i .awaiting }
      else
        { sys with inflight := true, refreshCalls := sys.refreshCalls + 1
                   callers := sys.callers.set i .awaiting }
    | _ => sys
  | .complete =>
    if sys.inflight then
      { sys with inflight := false, refreshed := true, bearer := fresh }
    else sys
  | .receive i =>
    match sys.callers[i]? with
    | some .awaiting =>
      if sys.refreshed then
        { sys with callers := sys.callers.set i (.done sys.bearer) }
      else sys
    | _ => sys

/-- Run a schedule of interleaved steps. -/
def runRefresh (fresh : String) (sys : RefreshSystem)
    (acts : List RefreshAction) : RefreshSystem :=
  acts.foldl (refreshStep fresh) sys

/-- Every caller has returned from `getValid()`. -/
def RefreshSystem.allDone (sys : RefreshSystem) : Bool :=
  sys.callers.all fun ph =>
    match ph with
    | .done _ => true
    | _ => false

/-- The inductive invariant of the single-flight model: the number of
refresh HTTP calls is determined by the in-flight/refreshed flags (so it
never exceeds one), an in-flight refresh has not completed yet, a completed
refresh installed the fresh bearer, and a finished caller holds the fresh
bearer of the completed refresh. -/
def RefreshInv (n : Nat) (fresh : String) (sys : RefreshSystem) : Prop :=
  sys.callers.length = n
    ∧ sys.refreshCalls = (if sys.inflight || sys.refreshed then 1 else 0)
    ∧ (sys.inflight = true → sys.refreshed = false)
    ∧ (sys.refreshed = true → sys.bearer = fresh)
    ∧ (∀ b, CallerPhase.done b ∈ sys.callers → sys.refreshed = true ∧ b = fresh)

theorem refreshStep_inv {n : Nat} {fresh : String} {sys : RefreshSystem}
    (a : RefreshAction) (h : RefreshInv n fresh sys) :
    RefreshInv n fresh (refreshStep fresh sys a) := by
  obtain ⟨hlen, hcount, hinfl, hbearer, hdone⟩ := h
  cases a with
  | observe i =>
    simp only [refreshStep]
    split
    · next heq =>
      split
      · next hrefreshed =>
        refine ⟨by simpa using hlen, by simpa using hcount, by simpa using hinfl,
          by simpa using hbearer, ?_⟩
        intro b hb
        rcases List.mem_or_eq_of_mem_set hb with hmem | hEq
        · exact hdone b hmem
        · cases hEq
          exact ⟨hrefreshed, hbearer hrefreshed⟩
      · next hrefreshed =>
        split
        · refine ⟨by simpa using hlen, by simpa using hcount, by simpa using hinfl,
            by simpa using hbearer, ?_⟩
          intro b hb
          rcases List.mem_or_eq_of_mem_set hb with hmem | hEq
          · exact hdone b hmem
          · cases hEq
        · next hinfl2 =>
          refine ⟨by simpa using hlen, ?_, by simp [eq_false_of_ne_true hrefreshed], ?_, ?_⟩
          · simp only [Bool.true_or]
            have : sys.inflight = false := by
              cases hsys : sys.inflight
              · rfl
              · exact absurd hsys hinfl2
            simp [this, eq_false_of_ne_true hrefreshed] at hcount
            simpa using hcount
          · intro hr
            exact absurd hr hrefreshed
          · intro b hb
            rcases List.mem_or_eq_of_mem_set hb with hmem | hEq
            · exact hdone b hmem
            · cases hEq
    · exact ⟨hlen, hcount, hinfl, hbearer, hdone⟩
  | complete =>
    simp only [refreshStep]
    split
    · next hin =>
      refine ⟨hlen, ?_, by simp, by simp, ?_⟩
      · simpa [hin] using hcount
      · intro b hb
        rcases hdone b hb with ⟨hr, _⟩
        exact absurd hr (by simp [hinfl hin])
    · exact ⟨hlen, hcount, hinfl, hbearer, hdone⟩
  | receive i =>
    simp only [refreshStep]
    split
    · next heq =>
      split
      · next hrefreshed =>
        refine ⟨by simpa using hlen, by simpa using hcount, by simpa using hinfl,
          by simpa using hbearer, ?_⟩
        intro b hb
        rcases List.mem_or_eq_of_mem_set hb with hmem | hEq
        · exact hdone b hmem
        · cases hEq
          exact ⟨hrefreshed, hbearer hrefreshed⟩
      · exact ⟨hlen, hcount, hinfl, hbearer, hdone⟩
    · exact ⟨hlen, hcount, hinfl, hbearer, hdone⟩

theorem runRefresh_inv {n : Nat} {fresh : String} {sys : RefreshSystem}
    (acts : List RefreshAction) (h : RefreshInv n fresh sys) :
    RefreshInv n fresh (runRefresh fresh sys acts) := by
  induction acts generalizing sys with
  | nil => exact h
  | cons a rest ih => exact ih (refreshStep_inv a h)

theorem initRefresh_inv (n : Nat) (old fresh : String) :
    RefreshInv n fresh (initRefresh n old) := by
  refine ⟨by simp [initRefresh], by simp [initRefresh], by simp [initRefresh],
    by simp [initRefresh], ?_⟩
  intro b hb
  simp only [initRefresh] at hb
  have := List.eq_of_mem_replicate hb
  cases this

/-! ## Claim theorems -/

/-- C1 — the dispatcher is supposed to pass every chat-completion request
through the admission gate before the upstream call, but `handler.ts`
line 27 has `await checkRateLimit(state)` commented out ("Temporarily
disable rate limiting for testing"): no dispatch ever performs an
admission check, yet a well-formed request still triggers the upstream
chat-completions call. -/
theorem handler_upstream_without_admission :
    (∀ st body, HEvent.rateLimitCheck ∉ (handleCompletion st body).1)
      ∧ ((handleCompletion ⟨false, none, some "ghu-token"⟩
            (some ⟨"gpt-4o", some [{ role := .user, content := .str "hi" }],
              some 16, none, false⟩)).1.any HEvent.isUpstreamCall) = true := by
  constructor
  · intro st body
    cases body with
    | none => simp [handleCompletion]
    | some raw =>
      simp only [handleCompletion]
      cases hm : raw.messages with
      | none => simp
      | some msgs =>
        simp only
        split
        · simp
        · cases htok : st.copilotToken <;> cases hap : st.manualApprove <;>
            simp [createChatCompletionsModel, htok, hap]
  · decide

/-- C3 — when the inbound payload's `max_tokens` is null/undefined the
handler fills it from `state.models?.data` (the model-capability table):
a hit installs that model's `max_output_tokens`, a miss leaves the field
unset with no error, and a payload that already carries `max_tokens` is
forwarded unchanged (the upstream payload keeps its `max_tokens`). -/
theorem handler_fills_max_tokens (st : AppState) (p : Payload) :
    (∀ m, p.max_tokens = none →
        st.models.bind (fun data => data.find? (fun e => e.id == p.model)) = some m →
        (fillMaxTokens st p).max_tokens = some m.maxOutputTokens)
      ∧ (p.max_tokens = none →
          st.models.bind (fun data => data.find? (fun e => e.id == p.model)) = none →
          (fillMaxTokens st p).max_tokens = none)
      ∧ (∀ v, p.max_tokens = some v → fillMaxTokens st p = p)
      ∧ (∀ raw msgs, raw.messages = some msgs → raw.model ≠ "" →
          st.copilotToken ≠ none →
          (upstreamPayload? (handleCompletion st (some raw)).1).map Payload.max_tokens
            = some (fillMaxTokens st
                { model := raw.model, messages := msgs
                  max_tokens := raw.max_tokens, agent_prompt := raw.agent_prompt
                  stream := raw.stream }).max_tokens) := by
  refine ⟨?_, ?_, ?_, ?_⟩
  · intro m hmt hfind
    simp [fillMaxTokens, hmt, hfind]
  · intro hmt hfind
    simp [fillMaxTokens, hmt, hfind]
  · intro v hmt
    simp [fillMaxTokens, hmt]
  · intro raw msgs hmsgs hmodel htok
    obtain ⟨tok, htok'⟩ := Option.ne_none_iff_exists'.mp htok
    simp only [handleCompletion, hmsgs]
    rw [if_neg hmodel]
    cases hap : st.manualApprove <;>
      simp [createChatCompletionsModel, htok', hap, upstreamPayload?]

/-- Witness for C3: with `"known-model" ↦ 16384` in the capability table,
a payload without `max_tokens` gets 16384 filled in. -/
theorem handler_fills_max_tokens_witness :
    (fillMaxTokens ⟨false, some [⟨"known-model", 16384⟩], some "tok"⟩
        { model := "known-model", messages := [], max_tokens := none }).max_tokens
      = some 16384 :=
  (handler_fills_max_tokens ⟨false, some [⟨"known-model", 16384⟩], some "tok"⟩
      { model := "known-model", messages := [], max_tokens := none }).1
    ⟨"known-model", 16384⟩ rfl (by decide)

/-- C4 — the handler rejects a missing/non-array `messages` field or a
missing/empty `model` with a local HTTP 400 and no upstream traffic, as
the claim says; but, contrary to the claim, an *empty* `messages` array
passes the check `!Array.isArray(payload.messages) || !payload.model` and
the request is forwarded upstream.  This theorem is the amended part
(missing field ⇒ HTTP 400, empty event trace). -/
theorem handler_validation (st : AppState) (raw : RawPayload)
    (h : raw.messages = none ∨ raw.model = "") :
    handleCompletion st (some raw) =
      ([], .httpError 400 "Missing required fields: messages and model") := by
  rcases h with h | h
  · simp [handleCompletion, h]
  · cases hm : raw.messages with
    | none => simp [handleCompletion, hm]
    | some msgs => simp [handleCompletion, hm, h]

/-- Witness for C4's amended theorem: a payload whose `messages` field is
not an array is rejected with HTTP 400 and triggers no event. -/
theorem handler_validation_witness :
    handleCompletion ⟨false, none, some "ghu-token"⟩
        (some ⟨"gpt-4o", none, none, none, false⟩) =
      ([], .httpError 400 "Missing required fields: messages and model") :=
  handler_validation ⟨false, none, some "ghu-token"⟩
    ⟨"gpt-4o", none, none, none, false⟩ (Or.inl rfl)

/-- C4 counterexample — the claim also demands a 400 for an *empty*
`messages` array, but `{model:"gpt-4o", messages:[]}` sails through the
handler's check and reaches the upstream call. -/
theorem handler_empty_messages_not_rejected :
    (handleCompletion ⟨false, none, some "ghu-token"⟩
        (some ⟨"gpt-4o", some [], some 16, none, false⟩)).2 = .ok
      ∧ ((handleCompletion ⟨false, none, some "ghu-token"⟩
            (some ⟨"gpt-4o", some [], some 16, none, false⟩)).1.any
            HEvent.isUpstreamCall) = true := by
  decide

/-- C7 counterexample — a check arriving when the elapsed time *equals*
the configured interval (1 s after the last admitted call, interval 1 s)
is claimed to be admitted, but `elapsedSeconds > rateLimitSeconds` is
strict and the call is rejected. -/
theorem checkRateLimit_boundary_not_admitted :
    (2000 : Int) - 1000 = 1000 * (RLState.mk (some 1000) (some 1) false).limit
      ∧ checkRateLimit ⟨some 1000, some 1, false⟩ 2000 = .reject rateLimitError := by
  decide

/-- C7 (amended) — with a configured interval and a recorded last-admitted
timestamp, the call is admitted immediately (recording `now`) exactly when
the elapsed time strictly exceeds the interval; elapsed time equal to the
interval is not admitted immediately. -/
theorem checkRateLimit_immediate_iff (s : RLState) (now : Int)
    (hlast : s.lastRequestTimestamp.getD 0 ≠ 0)
    (hr : 0 < s.limit) :
    ((checkRateLimit s now).isImmediate = true ↔
        1000 * s.limit < now - s.lastRequestTimestamp.getD 0)
      ∧ ∀ s', checkRateLimit s now = .proceed s' →
          s' = { s with lastRequestTimestamp := some now } := by
  unfold checkRateLimit
  rw [if_neg hlast]
  by_cases hc : 1000 * s.limit < now - s.lastRequestTimestamp.getD 0
  · rw [if_pos ⟨hr, hc⟩]
    refine ⟨by simp [RLResult.isImmediate, hc], ?_⟩
    intro s' h
    simpa using h.symm
  · rw [if_neg (fun hand => hc hand.2)]
    split
    · refine ⟨by simp [RLResult.isImmediate, hc], ?_⟩
      intro s' h
      simp at h
    · refine ⟨by simp [RLResult.isImmediate, hc], ?_⟩
      intro s' h
      simp at h

/-- Witness for C7's amended theorem at a concrete state: interval 2 s,
last admitted at t = 1000 ms, check at t = 9000 ms — admitted. -/
theorem checkRateLimit_immediate_iff_witness :
    (checkRateLimit ⟨some 1000, some 2, false⟩ 9000).isImmediate = true :=
  ((checkRateLimit_immediate_iff ⟨some 1000, some 2, false⟩ 9000
      (by decide) (by decide)).1).mpr (by decide)

/-- C8 counterexample — two rejected checks with different remaining wait
times (9 s and 1 s left of a 10 s interval) throw the *identical* error
value: the thrown `HTTPError` carries only "Rate limit exceeded" and
status 429, never the remaining wait time. -/
theorem rateLimit_reject_carries_no_wait_time :
    checkRateLimit ⟨some 1000, some 10, false⟩ 2000 = .reject rateLimitError
      ∧ checkRateLimit ⟨some 1000, some 10, false⟩ 10000 = .reject rateLimitError
      ∧ remainingWaitSeconds ⟨some 1000, some 10, false⟩ 2000 = 9
      ∧ remainingWaitSeconds ⟨some 1000, some 10, false⟩ 10000 = 1 := by
  decide

/-- C8 (amended) — under the reject policy a check inside the interval
fails immediately with the fixed HTTP 429 "Rate limit exceeded" error (the
remaining wait time is only logged, not part of the error); the request is
never silently dropped. -/
theorem checkRateLimit_reject_immediate (s : RLState) (now : Int)
    (hlast : s.lastRequestTimestamp.getD 0 ≠ 0)
    (_hr : 0 < s.limit)
    (he : now - s.lastRequestTimestamp.getD 0 < 1000 * s.limit)
    (hw : s.rateLimitWait = false) :
    checkRateLimit s now = .reject rateLimitError
      ∧ rateLimitError.status = 429 := by
  unfold checkRateLimit
  rw [if_neg hlast]
  rw [if_neg (fun hand => absurd hand.2 (by omega))]
  simp [hw, rateLimitError]

/-- Witness for C8's amended theorem: interval 10 s, last admitted at
t = 1000 ms, reject policy, check at t = 2000 ms. -/
theorem checkRateLimit_reject_immediate_witness :
    checkRateLimit ⟨some 1000, some 10, false⟩ 2000 = .reject rateLimitError :=
  (checkRateLimit_reject_immediate ⟨some 1000, some 10, false⟩ 2000
      (by decide) (by decide) (by decide) rfl).1

/-- C6 counterexample — wait policy, interval 1 s, last admitted at
t = 1 ms.  A waiter checking at t = 101 ms (900 ms of interval remaining)
sleeps a full 1000 ms, not "exactly the remaining interval"; and a later
call at t = 1201 ms is admitted immediately, proceeding only 100 ms after
the waiter woke at t = 1101 ms — two admissions closer together than the
1000 ms interval. -/
theorem checkRateLimit_wait_pacing_cex :
    checkRateLimit ⟨some 1, some 1, true⟩ 101 =
        .waitThenProceed 1000 ⟨some 101, some 1, true⟩
      ∧ (1000 : Int) ≠ 1000 * 1 - 100
      ∧ checkRateLimit ⟨some 101, some 1, true⟩ 1201 =
          .proceed ⟨some 1201, some 1, true⟩
      ∧ (1201 : Int) - (101 + 1000) < 1000 * 1 := by
  decide

/-- C6 (amended) — under the wait policy a caller inside the interval
suspends for the remaining interval rounded *up* to a whole second
(`Math.ceil`), so it wakes no earlier than one full interval after the
recorded last-admitted timestamp (and less than a second later than
that); the recorded timestamp after the wait is the time of the original
check, not the wake-up time. -/
theorem checkRateLimit_wait_policy (s : RLState) (now : Int)
    (hlast : s.lastRequestTimestamp.getD 0 ≠ 0)
    (_hr : 0 < s.limit)
    (hwait : s.rateLimitWait = true)
    (he : now - s.lastRequestTimestamp.getD 0 < 1000 * s.limit) :
    checkRateLimit s now =
        .waitThenProceed
          (ceilDiv (1000 * s.limit - (now - s.lastRequestTimestamp.getD 0)) 1000
            * 1000)
          { s with lastRequestTimestamp := some now }
      ∧ 1000 * s.limit - (now - s.lastRequestTimestamp.getD 0)
          ≤ ceilDiv (1000 * s.limit - (now - s.lastRequestTimestamp.getD 0)) 1000
              * 1000
      ∧ ceilDiv (1000 * s.limit - (now - s.lastRequestTimestamp.getD 0)) 1000
            * 1000
          < 1000 * s.limit - (now - s.lastRequestTimestamp.getD 0) + 1000
      ∧ s.lastRequestTimestamp.getD 0 + 1000 * s.limit
          ≤ now
            + ceilDiv (1000 * s.limit - (now - s.lastRequestTimestamp.getD 0)) 1000
                * 1000 := by
  have hge := ceilDiv_mul_ge (1000 * s.limit - (now - s.lastRequestTimestamp.getD 0))
    1000 (by norm_num)
  have hlt := ceilDiv_mul_lt (1000 * s.limit - (now - s.lastRequestTimestamp.getD 0))
    1000 (by norm_num)
  refine ⟨?_, hge, hlt, by omega⟩
  unfold checkRateLimit
  rw [if_neg hlast]
  rw [if_neg (fun hand => absurd hand.2 (by omega))]
  simp [hwait]

/-- Witness for C6's amended theorem: interval 2 s, last admitted at
t = 1000 ms, wait policy, check at t = 1500 ms — sleeps 2000 ms (the
1500 ms remainder rounded up to whole seconds) and records t = 1500 ms. -/
theorem checkRateLimit_wait_policy_witness :
    checkRateLimit ⟨some 1000, some 2, true⟩ 1500 =
      .waitThenProceed 2000 ⟨some 1500, some 2, true⟩ := by
  rw [(checkRateLimit_wait_policy ⟨some 1000, some 2, true⟩ 1500
      (by decide) (by decide) rfl (by decide)).1]
  decide

/-- C2 counterexample — `" "` is an agent-preamble string, but
`payload.agent_prompt && payload.agent_prompt.trim()` is falsy for a
whitespace-only preamble, so the existing system content `"Y"` stays
unchanged instead of becoming `" " + "\n\n" + "Y"` as the claim requires
for *every* request carrying a preamble string. -/
theorem agentPreamble_whitespace_cex :
    processAgentPrompt (some " ") [{ role := .system, content := .str "Y" }]
        = [{ role := .system, content := .str "Y" }]
      ∧ MsgContent.str "Y" ≠ MsgContent.str (" " ++ "\n\n" ++ "Y") := by
  decide

/-- C2 (amended) — for a preamble that is non-blank (non-empty after
trimming): with no system message present, the preamble becomes the sole
system message, placed first; with a system message present, the *first*
system message (here with string content `y`) gets content
`preamble ++ "\n\n" ++ y` — prepended, never replaced — and every other
message is returned unchanged. -/
theorem agentPreamble_merge (ap : String) (msgs : List Message)
    (hap : jsTrim ap ≠ "") :
    ((msgs.any fun m => m.role == Role.system) = false →
        processAgentPrompt (some ap) msgs = systemPreambleMessage ap :: msgs)
      ∧ ∀ pre m suf y, msgs = pre ++ m :: suf →
          (∀ x ∈ pre, (x.role == Role.system) = false) →
          m.role = .system → m.content = .str y →
          processAgentPrompt (some ap) msgs =
            pre ++ { m with content := .str (ap ++ "\n\n" ++ y) } :: suf := by
  have hap' : ap ≠ "" := by
    intro h
    subst h
    exact hap (by decide)
  constructor
  · intro hany
    simp only [processAgentPrompt]
    rw [if_pos ⟨hap', hap⟩, if_neg (by simp [hany])]
  · intro pre m suf y hmsgs hpre hrole hcontent
    subst hmsgs
    have hqm : (m.role == Role.system) = true := by simp [hrole]
    simp only [processAgentPrompt]
    rw [if_pos ⟨hap', hap⟩]
    have hany : ((pre ++ m :: suf).any fun x => x.role == Role.system) = true := by
      simp only [List.any_eq_true]
      exact ⟨m, by simp, hqm⟩
    rw [if_pos hany]
    have hfind :
        ((pre ++ m :: suf).findIdx fun x => x.role == Role.system) = pre.length := by
      rw [List.findIdx_append]
      rw [List.findIdx_eq_length_of_false hpre]
      simp [List.findIdx_cons, hqm]
    rw [hfind]
    apply List.ext_getElem?
    intro i
    rw [List.getElem?_mapIdx]
    by_cases hi : i < pre.length
    · rw [List.getElem?_append_left hi, List.getElem?_append_left hi,
        List.getElem?_eq_getElem hi]
      have hx := hpre pre[i] (List.getElem_mem hi)
      have hx' : ¬(pre[i].role = Role.system) := by simpa using hx
      simp [hx']
    · by_cases hie : i = pre.length
      · subst hie
        rw [List.getElem?_append_right (Nat.le_refl _),
          List.getElem?_append_right (Nat.le_refl _)]
        simp [hqm, hcontent, MsgContent.asStringOrJson]
        intro h
        exact absurd hrole h
      · have hgt : pre.length ≤ i := by omega
        rw [List.getElem?_append_right hgt, List.getElem?_append_right hgt]
        have hne : i - pre.length ≠ 0 := by omega
        cases hj : (i - pre.length) with
        | zero => exact absurd hj hne
        | succ j =>
          simp only [List.getElem?_cons_succ]
          cases hs : suf[j]? with
          | none => rfl
          | some x =>
            simp [hie]

/-- Witness for C2's amended theorem: preamble `"X"` with existing system
content `"Y"` yields exactly `"X\n\nY"`, and with no system message the
preamble becomes the sole, leading system message. -/
theorem agentPreamble_merge_witness :
    processAgentPrompt (some "X")
          [{ role := .user, content := .str "hi" },
           { role := .system, content := .str "Y" }]
        = [{ role := .user, content := .str "hi" },
           { role := .system, content := .str ("X" ++ "\n\n" ++ "Y") }]
      ∧ processAgentPrompt (some "X") [{ role := .user, content := .str "hi" }]
        = [systemPreambleMessage "X", { role := .user, content := .str "hi" }] := by
  constructor
  · exact (agentPreamble_merge "X" _ (by decide)).2
      [{ role := .user, content := .str "hi" }]
      { role := .system, content := .str "Y" } [] "Y" rfl (by decide) rfl rfl
  · exact (agentPreamble_merge "X" _ (by decide)).1 (by decide)

/-- C9 — an Anthropic assistant message whose parts are
`[thinking "A", text "B"]` translates to a single assistant text content
in which `A` (the thinking text) comes first, followed by `B` (the visible
text): the content is exactly `A ++ "\n" ++ B`, preserving original order,
because the canonical format has no thinking concept. -/
theorem thinking_before_text (A B : String) :
    (translateAssistantMessage [.thinking A, .text B]).content
        = .str (A ++ "\n" ++ B)
      ∧ (translateAssistantMessage [.thinking A, .text B]).role = .assistant := by
  constructor <;> rfl

/-- C5 — single-flight refresh, over every interleaving of any number of
concurrent `getValid()` callers racing one shared refresh: the count of
upstream refresh HTTP calls never exceeds one at any point of the
schedule, and once every caller has returned, exactly one refresh call was
made and every caller holds the same refreshed bearer. -/
theorem singleFlight_refresh (n : Nat) (old fresh : String)
    (acts : List RefreshAction) (hn : 0 < n)
    (hdone : (runRefresh fresh (initRefresh n old) acts).allDone = true) :
    (∀ pre, pre <+: acts →
        (runRefresh fresh (initRefresh n old) pre).refreshCalls ≤ 1)
      ∧ (runRefresh fresh (initRefresh n old) acts).refreshCalls = 1
      ∧ ∀ ph ∈ (runRefresh fresh (initRefresh n old) acts).callers,
          ph = CallerPhase.done fresh := by
  have hinv := runRefresh_inv acts
    (initRefresh_inv n old fresh)
  obtain ⟨hlen, hcount, hinfl, hbearer, hdoneInv⟩ := hinv
  have hall : ∀ ph ∈ (runRefresh fresh (initRefresh n old) acts).callers,
      ph = CallerPhase.done fresh := by
    intro ph hph
    have := (List.all_eq_true.mp hdone) ph hph
    cases ph with
    | start => simp at this
    | awaiting => simp at this
    | done b =>
      have := (hdoneInv b hph).2
      rw [this]
  refine ⟨?_, ?_, hall⟩
  · intro pre _
    have hpre := runRefresh_inv pre
      (initRefresh_inv n old fresh)
    obtain ⟨_, hc, _, _, _⟩ := hpre
    rw [hc]
    split <;> omega
  · have hne : (runRefresh fresh (initRefresh n old) acts).callers ≠ [] := by
      intro h
      rw [h] at hlen
      simp at hlen
      omega
    obtain ⟨ph, hph⟩ := List.exists_mem_of_ne_nil _ hne
    have hd := hall ph hph
    subst hd
    have hr := (hdoneInv fresh hph).1
    rw [hcount, hr]
    simp

/-- Witness for C5: ten concurrent callers under the schedule "all ten
observe, the refresh completes, all ten resume" — one refresh HTTP call,
every caller done with the refreshed bearer. -/
theorem singleFlight_refresh_witness :
    (runRefresh "fresh" (initRefresh 10 "old")
        [.observe 0, .observe 1, .observe 2, .observe 3, .observe 4,
         .observe 5, .observe 6, .observe 7, .observe 8, .observe 9,
         .complete,
         .receive 0, .receive 1, .receive 2, .receive 3, .receive 4,
         .receive 5, .receive 6, .receive 7, .receive 8,
         .receive 9]).refreshCalls = 1 :=
  (singleFlight_refresh 10 "old" "fresh" _ (by decide) (by decide)).2.1

/-- C10 — `server.ts` registers the count-tokens handler on the
authenticated sub-app under the *absolute* path
`/v1/messages/count_tokens`, and then mounts that sub-app under
`/v1/messages` (among others); Hono's `route` prefixes the sub-app's
paths, so no route at all serves `POST /v1/messages/count_tokens`
(regardless of what the snapshot's missing route files register), while
the constant `{input_tokens: 1}` handler actually sits at
`POST /v1/messages/v1/messages/count_tokens`. -/
theorem countTokens_route_unreachable
    (docsR analyticsR usageR modelsR : List RouteEntry) :
    lookupRoute (serverRoutesR docsR analyticsR usageR modelsR) .post
        ["v1", "messages", "count_tokens"] = none
      ∧ lookupRoute (serverRoutesR docsR analyticsR usageR modelsR) .post
          ["v1", "messages", "v1", "messages", "count_tokens"]
          = some .countTokens
      ∧ ∀ body, countTokensHandlerFn body = { input_tokens := 1 } := by
  refine ⟨?_, ?_, fun _ => rfl⟩
  · simp only [lookupRoute, serverRoutesR, List.find?_append]
    rw [mountAt_no_match ["docs"] docsR _ _ (by decide),
      mountAt_no_match ["analytics"] analyticsR _ _ (by decide),
      mountAt_no_match ["claude-code"] _ _ _ (by decide),
      mountAt_no_match ["usage"] _ _ _ (by decide),
      mountAt_no_match ["token"] _ _ _ (by decide),
      mountAt_no_match ["models"] _ _ _ (by decide),
      mountAt_no_match ["v1", "models"] _ _ _ (by decide)]
    decide
  · simp only [lookupRoute, serverRoutesR, List.find?_append]
    rw [mountAt_no_match ["docs"] docsR _ _ (by decide),
      mountAt_no_match ["analytics"] analyticsR _ _ (by decide),
      mountAt_no_match ["claude-code"] _ _ _ (by decide),
      mountAt_no_match ["usage"] _ _ _ (by decide),
      mountAt_no_match ["token"] _ _ _ (by decide),
      mountAt_no_match ["models"] _ _ _ (by decide),
      mountAt_no_match ["v1", "models"] _ _ _ (by decide)]
    decide

end CopilotApi
